import Mathlib

/-
Verification of the appointment lifecycle synchronizer
(src/src/routes/appointmentRoutes.js).

The synchronizer brokers between a remote calendar (Google Calendar,
modelled as a list of events with get/update by id semantics) and a
local ledger (the Prisma `Appointment` table, modelled as a list of
rows plus a serial-id counter).  Timestamps are represented by the ISO
source strings the code passes to `new Date(...)`; the JS `||` choice
between a dateTime and a date-only boundary is modelled explicitly.
The HTTP layer and identity check are external collaborators: each
route handler body becomes a function from the synchronizer state and
the authenticated patient id to a new state and a `RouteResult` outcome,
where the error constructors stand for the handler's distinct error
responses (400 not-authorized, 404, 400 slot-conflict, 500 catch-all).
-/

namespace ApptSync

/-- Start or end boundary of a calendar event: Google sends either a
precise `dateTime` or a date-only `date` value. -/
structure EventTime where
  dateTime : Option String
  date : Option String
deriving DecidableEq, Repr

/-- A remote calendar event (a slot).  `summary` is the free-text label
used as the status sentinel.  `extra` stands for all the other remote
fields of the event, which the code round-trips via the `...event`
spread when it updates. -/
structure GEvent where
  id : String
  summary : Option String
  start : EventTime
  end_ : EventTime
  extra : List (String × String)
deriving DecidableEq, Repr

/-- The `AppointmentStatus` enum of the Prisma schema. -/
inductive AppointmentStatus where
  | AVAILABLE
  | BOOKED
  | CANCELLED
deriving DecidableEq, Repr

/-- A row of the `Appointment` table.  `startTime`/`endTime` hold the
ISO string passed to `new Date(...)` (`none` would mean an invalid
date from an absent boundary). -/
structure Appointment where
  id : Nat
  startTime : Option String
  endTime : Option String
  status : AppointmentStatus
  googleEventId : Option String
  patientId : Option Nat
deriving DecidableEq, Repr

/-- Process-wide state visible to the route handlers: the OAuth
handshake flag `tokensSet`, the remote calendar, and the ledger with
its serial-id counter. -/
structure SyncState where
  tokensSet : Bool
  calendar : List GEvent
  ledger : List Appointment
  nextId : Nat
deriving DecidableEq, Repr

/-- The distinct error responses of the handlers: 400 "Google calendar
is not authorized yet.", 404 "Event not found in calendar.",
400 "This slot is not available anymore.", and the 500 catch-all. -/
inductive RouteError where
  | upstreamUnavailable
  | notFound
  | conflict
  | upstreamFailure
deriving DecidableEq, Repr

/-- Outcome of a route handler: the JSON success payload or one of the
error responses. -/
inductive RouteResult (α : Type) where
  | ok (a : α)
  | error (e : RouteError)
deriving DecidableEq, Repr

/-- Does the character list start with the given pattern? -/
def listStartsWith : List Char → List Char → Bool
  | _, [] => true
  | [], _ :: _ => false
  | a :: as, b :: bs => a == b && listStartsWith as bs

/-- Does the character list contain the pattern as a contiguous
subsequence? -/
def listContainsSeq (pat : List Char) : List Char → Bool
  | [] => pat.isEmpty
  | a :: rest => listStartsWith (a :: rest) pat || listContainsSeq pat rest

/-- JS `s.includes(pat)`. -/
def jsIncludes (s pat : String) : Bool :=
  listContainsSeq pat.toList s.toList

/-- ASCII case of JS `toUpperCase` on a character (the labels and the
availability token are ASCII). -/
def charUpper (c : Char) : Char :=
  if 'a' ≤ c ∧ c ≤ 'z' then Char.ofNat (c.toNat - 32) else c

/-- JS `s.toUpperCase()`. -/
def strUpper (s : String) : String :=
  ⟨s.data.map charUpper⟩

/-- JS truthiness of an optional string: `undefined` and `""` are
falsy. -/
def jsTruthy : Option String → Bool
  | none => false
  | some s => !(s == "")

/-- JS `a || b` on optional strings. -/
def jsOr (a b : Option String) : Option String :=
  if jsTruthy a then a else b

/-- The availability test the code applies to a label, written twice in
the source: `(summary || '').toUpperCase().includes('AVAILABLE')`. -/
def summaryAvailable (summary : Option String) : Bool :=
  jsIncludes (strUpper (summary.getD "")) "AVAILABLE"

/-- `calendar.events.get`: the event with the given id, if present
(the capability returns Slot or NotFound; the handler maps the absent
case to its 404 response). -/
def calGet (cal : List GEvent) (eventId : String) : Option GEvent :=
  cal.find? (fun e => decide (e.id = eventId))

/-- `calendar.events.update`: a full overwrite of the event with the
given id by the supplied resource. -/
def calUpdate (cal : List GEvent) (eventId : String) (resource : GEvent) :
    List GEvent :=
  cal.map (fun e => if e.id = eventId then resource else e)

/-- GET /appointments/available, applied to the calendar capability's
response for the [now, now+1month) window (`singleEvents: true`,
`orderBy: 'startTime'`): keep only events whose summary contains
"AVAILABLE", case-insensitively. -/
def availableRoute (st : SyncState) (resp : List GEvent) :
    SyncState × RouteResult (List GEvent) :=
  if !st.tokensSet then (st, .error .upstreamUnavailable)
  else (st, .ok (resp.filter (fun ev => summaryAvailable ev.summary)))

/-- POST /appointments/book/:eventId (handler body, after auth):
fetch the event, require an AVAILABLE label, overwrite the event with
summary BOOKED, insert a BOOKED ledger row with times derived from the
event's start/end, and return the created row. -/
def book (st : SyncState) (eventId : String) (userId : Nat) :
    SyncState × RouteResult Appointment :=
  if !st.tokensSet then (st, .error .upstreamUnavailable)
  else
    match calGet st.calendar eventId with
    | none => (st, .error .notFound)
    | some event =>
      if !(summaryAvailable event.summary) then (st, .error .conflict)
      else
        let updatedEvent : GEvent := { event with summary := some "BOOKED" }
        let cal2 := calUpdate st.calendar eventId updatedEvent
        let startIso := jsOr event.start.dateTime event.start.date
        let endIso := jsOr event.end_.dateTime event.end_.date
        let appointment : Appointment :=
          { id := st.nextId, startTime := startIso, endTime := endIso,
            status := .BOOKED, googleEventId := some eventId,
            patientId := some userId }
        ({ st with
            calendar := cal2,
            ledger := (st.ledger ++ [appointment]),
            nextId := st.nextId + 1 }, .ok appointment)

/-- The booking sequence when the ledger insert (`prisma.appointment.create`)
fails after the calendar update succeeded: the catch-all handler
reports the 500 failure with no compensation of the calendar step. -/
def bookLedgerFail (st : SyncState) (eventId : String) (userId : Nat) :
    SyncState × RouteResult Appointment :=
  if !st.tokensSet then (st, .error .upstreamUnavailable)
  else
    match calGet st.calendar eventId with
    | none => (st, .error .notFound)
    | some event =>
      if !(summaryAvailable event.summary) then (st, .error .conflict)
      else
        let updatedEvent : GEvent := { event with summary := some "BOOKED" }
        let cal2 := calUpdate st.calendar eventId updatedEvent
        ({ st with calendar := cal2 }, .error .upstreamFailure)

/-- Does a ledger row match cancel's `updateMany` filter
(googleEventId, patientId, status BOOKED)? -/
def cancelMatches (eventId : String) (userId : Nat) (r : Appointment) : Bool :=
  decide (r.googleEventId = some eventId ∧ r.patientId = some userId ∧
    r.status = AppointmentStatus.BOOKED)

/-- The row-level effect of cancel's `updateMany`: set status CANCELLED
on a matching row, leave any other row alone. -/
def cancelRow (eventId : String) (userId : Nat) (r : Appointment) : Appointment :=
  if cancelMatches eventId userId r then { r with status := .CANCELLED } else r

/-- POST /appointments/cancel/:eventId (handler body, after auth):
fetch the event, unconditionally overwrite it with summary AVAILABLE,
flip every matching BOOKED row of this user for this event to
CANCELLED, and report success. -/
def cancel (st : SyncState) (eventId : String) (userId : Nat) :
    SyncState × RouteResult String :=
  if !st.tokensSet then (st, .error .upstreamUnavailable)
  else
    match calGet st.calendar eventId with
    | none => (st, .error .notFound)
    | some event =>
      let updatedEvent : GEvent := { event with summary := some "AVAILABLE" }
      let cal2 := calUpdate st.calendar eventId updatedEvent
      let ledger2 := st.ledger.map (cancelRow eventId userId)
      ({ st with calendar := cal2, ledger := ledger2 },
       .ok "Appointment cancelled.")

/-- Comparator for the ledger capability's `orderBy: startTime asc`
(ISO strings compare lexicographically). -/
def startLe (a b : Appointment) : Bool :=
  decide (a.startTime.getD "" ≤ b.startTime.getD "")

/-- Insertion step of the ledger capability's ordering. -/
def insertByStart (a : Appointment) : List Appointment → List Appointment
  | [] => [a]
  | b :: rest =>
    if startLe a b then a :: b :: rest else b :: insertByStart a rest

/-- The ledger capability's `orderBy: startTime asc` (insertion sort). -/
def orderByStartAsc : List Appointment → List Appointment
  | [] => []
  | a :: rest => insertByStart a (orderByStartAsc rest)

/-- GET /appointments/mine: the caller's BOOKED rows ordered by start
time.  The source has no `tokensSet` gate on this route. -/
def mine (st : SyncState) (userId : Nat) :
    SyncState × RouteResult (List Appointment) :=
  (st, .ok (orderByStartAsc (st.ledger.filter (fun r =>
    decide (r.patientId = some userId ∧
      r.status = AppointmentStatus.BOOKED)))))

/-- The ledger row that a successful booking inserts. -/
def bookedRow (st : SyncState) (eventId : String) (userId : Nat)
    (ev : GEvent) : Appointment :=
  { id := st.nextId,
    startTime := jsOr ev.start.dateTime ev.start.date,
    endTime := jsOr ev.end_.dateTime ev.end_.date,
    status := .BOOKED,
    googleEventId := some eventId,
    patientId := some userId }

theorem calGet_id (cal : List GEvent) (eventId : String) (ev : GEvent)
    (hget : calGet cal eventId = some ev) : ev.id = eventId := by
  have := List.find?_some hget
  exact of_decide_eq_true this

theorem calGet_calUpdate_self (cal : List GEvent) (eventId : String)
    (res ev : GEvent) (hres : res.id = eventId)
    (hget : calGet cal eventId = some ev) :
    calGet (calUpdate cal eventId res) eventId = some res := by
  induction cal with
  | nil => simp [calGet] at hget
  | cons e rest ih =>
    by_cases h : e.id = eventId
    · simp [calGet, calUpdate, h, hres]
    · simp only [calGet, calUpdate, List.map_cons, if_neg h,
        List.find?_cons, decide_eq_false h] at hget ⊢
      exact ih hget

theorem book_ok (st : SyncState) (eventId : String) (userId : Nat)
    (ev : GEvent) (hTok : st.tokensSet = true)
    (hGet : calGet st.calendar eventId = some ev)
    (hAvail : summaryAvailable ev.summary = true) :
    book st eventId userId =
      ({ st with
          calendar := calUpdate st.calendar eventId
            { ev with summary := some "BOOKED" },
          ledger := (st.ledger ++ [bookedRow st eventId userId ev]),
          nextId := st.nextId + 1 },
       .ok (bookedRow st eventId userId ev)) := by
  simp [book, hTok, hGet, hAvail, bookedRow]

theorem book_conflict_eq (st : SyncState) (eventId : String) (userId : Nat)
    (ev : GEvent) (hTok : st.tokensSet = true)
    (hGet : calGet st.calendar eventId = some ev)
    (hNa : summaryAvailable ev.summary = false) :
    book st eventId userId = (st, .error .conflict) := by
  simp [book, hTok, hGet, hNa]

theorem cancel_ok (st : SyncState) (eventId : String) (userId : Nat)
    (ev : GEvent) (hTok : st.tokensSet = true)
    (hGet : calGet st.calendar eventId = some ev) :
    cancel st eventId userId =
      ({ st with
          calendar := calUpdate st.calendar eventId
            { ev with summary := some "AVAILABLE" },
          ledger := st.ledger.map (cancelRow eventId userId) },
       .ok "Appointment cancelled.") := by
  simp [cancel, hTok, hGet]

/-- Sample timed slot carrying the availability token. -/
def evA : GEvent :=
  { id := "e1", summary := some "Dr visit AVAILABLE",
    start := { dateTime := some "2026-01-01T09:00:00Z", date := none },
    end_ := { dateTime := some "2026-01-01T10:00:00Z", date := none },
    extra := [("location", "clinic")] }

/-- Sample all-day slot already booked. -/
def evB : GEvent :=
  { id := "e2", summary := some "BOOKED",
    start := { dateTime := none, date := some "2026-01-02" },
    end_ := { dateTime := none, date := some "2026-01-03" },
    extra := [] }

/-- Sample slot whose label contains the token only inside a longer
word. -/
def evU : GEvent :=
  { id := "e3", summary := some "UNAVAILABLE",
    start := { dateTime := some "2026-01-04T09:00:00Z", date := none },
    end_ := { dateTime := some "2026-01-04T10:00:00Z", date := none },
    extra := [] }

/-- Sample ledger row: patient 7 booked slot e2. -/
def row1 : Appointment :=
  { id := 1, startTime := some "2026-01-02", endTime := some "2026-01-03",
    status := .BOOKED, googleEventId := some "e2", patientId := some 7 }

/-- Sample ledger row: patient 8 booked slot e2 too. -/
def row2 : Appointment :=
  { id := 2, startTime := some "2026-01-02", endTime := some "2026-01-03",
    status := .BOOKED, googleEventId := some "e2", patientId := some 8 }

/-- Sample ledger row: an earlier booking of e2 by patient 7, already
cancelled. -/
def row3 : Appointment :=
  { id := 3, startTime := some "2026-01-02", endTime := some "2026-01-03",
    status := .CANCELLED, googleEventId := some "e2", patientId := some 7 }

/-- Sample synchronizer state after the authorization handshake. -/
def stA : SyncState :=
  { tokensSet := true, calendar := [evA, evB, evU],
    ledger := [row1, row2, row3], nextId := 4 }

/-- Sample synchronizer state before the authorization handshake. -/
def stOff : SyncState :=
  { tokensSet := false, calendar := [evA, evB, evU],
    ledger := [row1, row2, row3], nextId := 4 }

/-- Claim C1: for a slot whose label marks it AVAILABLE at fetch time,
book relabels the remote slot BOOKED and creates exactly one new
ledger row whose status is BOOKED, whose slot reference is the booked
id, whose patient reference is the caller, and whose time range is
derived from the slot's start/end (the date-time boundary when
present, the date-only value otherwise); the created row is
returned. -/
theorem book_available_books (st : SyncState) (eventId : String)
    (userId : Nat) (ev : GEvent) (hTok : st.tokensSet = true)
    (hGet : calGet st.calendar eventId = some ev)
    (hAvail : summaryAvailable ev.summary = true) :
    ∃ row : Appointment,
      (book st eventId userId).2 = .ok row ∧
      (book st eventId userId).1.ledger = st.ledger ++ [row] ∧
      row.status = .BOOKED ∧
      row.googleEventId = some eventId ∧
      row.patientId = some userId ∧
      row.startTime = jsOr ev.start.dateTime ev.start.date ∧
      row.endTime = jsOr ev.end_.dateTime ev.end_.date ∧
      (jsTruthy ev.start.dateTime = true → row.startTime = ev.start.dateTime) ∧
      (jsTruthy ev.start.dateTime = false → row.startTime = ev.start.date) ∧
      (jsTruthy ev.end_.dateTime = true → row.endTime = ev.end_.dateTime) ∧
      (jsTruthy ev.end_.dateTime = false → row.endTime = ev.end_.date) ∧
      calGet (book st eventId userId).1.calendar eventId =
        some { ev with summary := some "BOOKED" } := by
  refine ⟨bookedRow st eventId userId ev, ?_⟩
  rw [book_ok st eventId userId ev hTok hGet hAvail]
  refine ⟨rfl, rfl, rfl, rfl, rfl, rfl, rfl, ?_, ?_, ?_, ?_, ?_⟩
  · intro h; simp [bookedRow, jsOr, h]
  · intro h; simp [bookedRow, jsOr, h]
  · intro h; simp [bookedRow, jsOr, h]
  · intro h; simp [bookedRow, jsOr, h]
  · exact calGet_calUpdate_self st.calendar eventId _ ev
      (calGet_id st.calendar eventId ev hGet) hGet

/-- Witness for C1 at the sample state, slot e1, patient 7. -/
theorem book_available_books_at_sample :
    ∃ row : Appointment,
      (book stA "e1" 7).2 = .ok row ∧
      (book stA "e1" 7).1.ledger = stA.ledger ++ [row] ∧
      row.status = .BOOKED ∧
      row.googleEventId = some "e1" ∧
      row.patientId = some 7 ∧
      row.startTime = jsOr evA.start.dateTime evA.start.date ∧
      row.endTime = jsOr evA.end_.dateTime evA.end_.date ∧
      (jsTruthy evA.start.dateTime = true → row.startTime = evA.start.dateTime) ∧
      (jsTruthy evA.start.dateTime = false → row.startTime = evA.start.date) ∧
      (jsTruthy evA.end_.dateTime = true → row.endTime = evA.end_.dateTime) ∧
      (jsTruthy evA.end_.dateTime = false → row.endTime = evA.end_.date) ∧
      calGet (book stA "e1" 7).1.calendar "e1" =
        some { evA with summary := some "BOOKED" } :=
  book_available_books stA "e1" 7 evA rfl (by decide) (by decide)

/-- Claim C2: booking a slot whose label does not pass the
availability test fails with the conflict response, and neither the
calendar nor the ledger is mutated. -/
theorem book_conflict_no_mutation (st : SyncState) (eventId : String)
    (userId : Nat) (ev : GEvent) (hTok : st.tokensSet = true)
    (hGet : calGet st.calendar eventId = some ev)
    (hNa : summaryAvailable ev.summary = false) :
    (book st eventId userId).2 = .error .conflict ∧
    (book st eventId userId).1 = st ∧
    (book st eventId userId).1.calendar = st.calendar ∧
    (book st eventId userId).1.ledger = st.ledger := by
  rw [book_conflict_eq st eventId userId ev hTok hGet hNa]
  exact ⟨rfl, rfl, rfl, rfl⟩

/-- Witness for C2 at the sample state, slot e2 (labelled BOOKED),
patient 7. -/
theorem book_conflict_no_mutation_at_sample :
    (book stA "e2" 7).2 = .error .conflict ∧
    (book stA "e2" 7).1 = stA ∧
    (book stA "e2" 7).1.calendar = stA.calendar ∧
    (book stA "e2" 7).1.ledger = stA.ledger :=
  book_conflict_no_mutation stA "e2" 7 evB rfl (by decide) (by decide)

/-- Claim C3: cancel on an existing slot relabels it AVAILABLE
whatever its prior label, flips to CANCELLED exactly the ledger rows
matching (slot reference, patient reference, status BOOKED), leaves
every other row unchanged, and reports success even when no row
matches. -/
theorem cancel_resets_and_cancels (st : SyncState) (eventId : String)
    (userId : Nat) (ev : GEvent) (hTok : st.tokensSet = true)
    (hGet : calGet st.calendar eventId = some ev) :
    (cancel st eventId userId).2 = .ok "Appointment cancelled." ∧
    calGet (cancel st eventId userId).1.calendar eventId =
      some { ev with summary := some "AVAILABLE" } ∧
    (cancel st eventId userId).1.ledger.length = st.ledger.length ∧
    (∀ i (h : i < st.ledger.length)
      (h2 : i < (cancel st eventId userId).1.ledger.length),
      ((st.ledger.get ⟨i, h⟩).googleEventId = some eventId ∧
          (st.ledger.get ⟨i, h⟩).patientId = some userId ∧
          (st.ledger.get ⟨i, h⟩).status = AppointmentStatus.BOOKED →
        (cancel st eventId userId).1.ledger.get ⟨i, h2⟩ =
          { st.ledger.get ⟨i, h⟩ with status := .CANCELLED }) ∧
      (¬((st.ledger.get ⟨i, h⟩).googleEventId = some eventId ∧
          (st.ledger.get ⟨i, h⟩).patientId = some userId ∧
          (st.ledger.get ⟨i, h⟩).status = AppointmentStatus.BOOKED) →
        (cancel st eventId userId).1.ledger.get ⟨i, h2⟩ =
          st.ledger.get ⟨i, h⟩)) := by
  rw [cancel_ok st eventId userId ev hTok hGet]
  refine ⟨rfl, ?_, by simp, ?_⟩
  · exact calGet_calUpdate_self st.calendar eventId _ ev
      (calGet_id st.calendar eventId ev hGet) hGet
  · intro i h h2
    have hmap : (st.ledger.map (cancelRow eventId userId)).get ⟨i, h2⟩ =
        cancelRow eventId userId (st.ledger.get ⟨i, h⟩) := by
      simp [List.get_eq_getElem, List.getElem_map]
    constructor
    · intro hm
      have hcm : cancelMatches eventId userId (st.ledger.get ⟨i, h⟩) = true := by
        simp only [cancelMatches, decide_eq_true_eq]
        exact hm
      rw [hmap]
      unfold cancelRow
      rw [if_pos hcm]
    · intro hm
      have hcm : ¬(cancelMatches eventId userId (st.ledger.get ⟨i, h⟩) = true) := by
        simp only [cancelMatches, decide_eq_true_eq]
        exact hm
      rw [hmap]
      unfold cancelRow
      rw [if_neg hcm]

/-- Witness for C3 at the sample state, slot e2, patient 7: row1 is
flipped to CANCELLED, row2 (patient 8) and row3 (already CANCELLED)
are untouched. -/
theorem cancel_resets_and_cancels_at_sample :
    (cancel stA "e2" 7).2 = .ok "Appointment cancelled." ∧
    calGet (cancel stA "e2" 7).1.calendar "e2" =
      some { evB with summary := some "AVAILABLE" } ∧
    (cancel stA "e2" 7).1.ledger.length = stA.ledger.length ∧
    (∀ i (h : i < stA.ledger.length)
      (h2 : i < (cancel stA "e2" 7).1.ledger.length),
      ((stA.ledger.get ⟨i, h⟩).googleEventId = some "e2" ∧
          (stA.ledger.get ⟨i, h⟩).patientId = some 7 ∧
          (stA.ledger.get ⟨i, h⟩).status = AppointmentStatus.BOOKED →
        (cancel stA "e2" 7).1.ledger.get ⟨i, h2⟩ =
          { stA.ledger.get ⟨i, h⟩ with status := .CANCELLED }) ∧
      (¬((stA.ledger.get ⟨i, h⟩).googleEventId = some "e2" ∧
          (stA.ledger.get ⟨i, h⟩).patientId = some 7 ∧
          (stA.ledger.get ⟨i, h⟩).status = AppointmentStatus.BOOKED) →
        (cancel stA "e2" 7).1.ledger.get ⟨i, h2⟩ =
          stA.ledger.get ⟨i, h⟩)) :=
  cancel_resets_and_cancels stA "e2" 7 evB rfl (by decide)

/-- Claim C4: applied to the calendar capability's windowed, ordered,
recurrence-expanded response, the availability listing mutates
nothing and returns exactly the responded slots whose label passes
the case-insensitive substring test, in the response's ascending
start order, all inside the window; every in-window calendar slot the
capability reports that passes the test appears. -/
theorem listAvailable_filters_ordered_window (st : SyncState)
    (resp : List GEvent) (key : GEvent → Int) (lo hi : Int)
    (hTok : st.tokensSet = true)
    (hSorted : resp.Pairwise (fun a b => key a ≤ key b))
    (hWin : ∀ e ∈ resp, lo ≤ key e ∧ key e < hi)
    (hAll : ∀ e ∈ st.calendar, lo ≤ key e → key e < hi → e ∈ resp) :
    (availableRoute st resp).1 = st ∧
    ∃ out, (availableRoute st resp).2 = .ok out ∧
      (∀ e, e ∈ out ↔ e ∈ resp ∧ summaryAvailable e.summary = true) ∧
      out.Pairwise (fun a b => key a ≤ key b) ∧
      (∀ e ∈ out, lo ≤ key e ∧ key e < hi) ∧
      (∀ e ∈ st.calendar, lo ≤ key e → key e < hi →
        summaryAvailable e.summary = true → e ∈ out) := by
  have hroute : availableRoute st resp =
      (st, .ok (resp.filter (fun ev => summaryAvailable ev.summary))) := by
    simp [availableRoute, hTok]
  rw [hroute]
  refine ⟨rfl, resp.filter (fun ev => summaryAvailable ev.summary),
    rfl, ?_, ?_, ?_, ?_⟩
  · intro e; exact List.mem_filter
  · exact List.Pairwise.sublist (List.filter_sublist resp) hSorted
  · intro e he; exact hWin e (List.mem_filter.mp he).1
  · intro e hc hlo hhi hav
    exact List.mem_filter.mpr ⟨hAll e hc hlo hhi, hav⟩

/-- Witness for C4 at the sample state with a constant key and the
window [0, 1): the filtered listing keeps evA and evU and drops
evB. -/
theorem listAvailable_filters_ordered_window_at_sample :
    (availableRoute stA [evA, evB, evU]).1 = stA ∧
    ∃ out, (availableRoute stA [evA, evB, evU]).2 = .ok out ∧
      (∀ e, e ∈ out ↔ e ∈ [evA, evB, evU] ∧
        summaryAvailable e.summary = true) ∧
      out.Pairwise (fun a b => (fun _ : GEvent => (0 : Int)) a ≤
        (fun _ : GEvent => (0 : Int)) b) ∧
      (∀ e ∈ out, (0 : Int) ≤ (fun _ : GEvent => (0 : Int)) e ∧
        (fun _ : GEvent => (0 : Int)) e < 1) ∧
      (∀ e ∈ stA.calendar, (0 : Int) ≤ (fun _ : GEvent => (0 : Int)) e →
        (fun _ : GEvent => (0 : Int)) e < 1 →
        summaryAvailable e.summary = true → e ∈ out) :=
  listAvailable_filters_ordered_window stA [evA, evB, evU]
    (fun _ => 0) 0 1 rfl
    (by simp [List.pairwise_cons])
    (by intro e _; exact ⟨le_refl 0, by norm_num⟩)
    (by intro e he _ _; simpa [stA] using he)

/-- How a single existing ledger row may legally change under an
operation: all identity fields (serial id, times, slot reference,
patient reference) are preserved, and the status either stays or
moves from BOOKED to CANCELLED. -/
def rowEvolves (r r2 : Appointment) : Prop :=
  r2.id = r.id ∧ r2.startTime = r.startTime ∧ r2.endTime = r.endTime ∧
  r2.googleEventId = r.googleEventId ∧ r2.patientId = r.patientId ∧
  (r2.status = r.status ∨
    (r.status = AppointmentStatus.BOOKED ∧
      r2.status = AppointmentStatus.CANCELLED))

/-- How the ledger may legally change under an operation: the existing
rows stay in place, each evolving per `rowEvolves`; rows may only be
added after them. -/
def ledgerEvolves (old new : List Appointment) : Prop :=
  old.length ≤ new.length ∧
  ∀ i (h : i < old.length) (h2 : i < new.length),
    rowEvolves (old.get ⟨i, h⟩) (new.get ⟨i, h2⟩)

theorem rowEvolves_refl (r : Appointment) : rowEvolves r r :=
  ⟨rfl, rfl, rfl, rfl, rfl, Or.inl rfl⟩

theorem ledgerEvolves_refl (l : List Appointment) : ledgerEvolves l l :=
  ⟨le_refl _, fun _ _ _ => rowEvolves_refl _⟩

theorem ledgerEvolves_append (l ex : List Appointment) :
    ledgerEvolves l (l ++ ex) := by
  refine ⟨by simp, fun i h h2 => ?_⟩
  have hg : (l ++ ex).get ⟨i, h2⟩ = l.get ⟨i, h⟩ := by
    simp [List.get_eq_getElem, List.getElem_append_left h]
  rw [hg]
  exact rowEvolves_refl _

theorem ledgerEvolves_cancelMap (l : List Appointment) (eventId : String)
    (userId : Nat) : ledgerEvolves l (l.map (cancelRow eventId userId)) := by
  refine ⟨by simp, fun i h h2 => ?_⟩
  have hg : (l.map (cancelRow eventId userId)).get ⟨i, h2⟩ =
      cancelRow eventId userId (l.get ⟨i, h⟩) := by
    simp [List.get_eq_getElem, List.getElem_map]
  rw [hg]
  unfold cancelRow
  by_cases hc : cancelMatches eventId userId (l.get ⟨i, h⟩) = true
  · rw [if_pos hc]
    have hP := of_decide_eq_true (p := (l.get ⟨i, h⟩).googleEventId =
      some eventId ∧ (l.get ⟨i, h⟩).patientId = some userId ∧
      (l.get ⟨i, h⟩).status = AppointmentStatus.BOOKED) hc
    exact ⟨rfl, rfl, rfl, rfl, rfl, Or.inr ⟨hP.2.2, rfl⟩⟩
  · rw [if_neg hc]
    exact rowEvolves_refl _

theorem book_ledger_shape (st : SyncState) (eventId : String)
    (userId : Nat) :
    (book st eventId userId).1.ledger = st.ledger ∨
    ∃ ev, (book st eventId userId).1.ledger =
      st.ledger ++ [bookedRow st eventId userId ev] := by
  cases hTok : st.tokensSet with
  | false => left; simp [book, hTok]
  | true =>
    cases hGet : calGet st.calendar eventId with
    | none => left; simp [book, hTok, hGet]
    | some ev =>
      by_cases hAvail : summaryAvailable ev.summary = true
      · right
        exact ⟨ev, by rw [book_ok st eventId userId ev hTok hGet hAvail]⟩
      · left
        rw [book_conflict_eq st eventId userId ev hTok hGet
          (by simpa using hAvail)]

theorem cancel_ledger_shape (st : SyncState) (eventId : String)
    (userId : Nat) :
    (cancel st eventId userId).1.ledger = st.ledger ∨
    (cancel st eventId userId).1.ledger =
      st.ledger.map (cancelRow eventId userId) := by
  cases hTok : st.tokensSet with
  | false => left; simp [cancel, hTok]
  | true =>
    cases hGet : calGet st.calendar eventId with
    | none => left; simp [cancel, hTok, hGet]
    | some ev =>
      right
      rw [cancel_ok st eventId userId ev hTok hGet]

theorem cancel_ledger_length (st : SyncState) (eventId : String)
    (userId : Nat) :
    (cancel st eventId userId).1.ledger.length = st.ledger.length := by
  rcases cancel_ledger_shape st eventId userId with hsh | hsh <;>
    rw [hsh] <;> simp

/-- Claim C5: every operation preserves the ledger invariants: an
existing row's slot reference and identity fields are never changed,
its only possible status mutation is BOOKED to CANCELLED, cancel adds
no rows, and book only appends a fresh row (with the next serial id,
distinct from every existing row), never reusing an existing -- in
particular a CANCELLED -- row. -/
theorem ledger_invariants_preserved (st : SyncState) (eventId : String)
    (userId : Nat) (resp : List GEvent)
    (hFresh : ∀ r ∈ st.ledger, r.id < st.nextId) :
    ledgerEvolves st.ledger (availableRoute st resp).1.ledger ∧
    ledgerEvolves st.ledger (mine st userId).1.ledger ∧
    ledgerEvolves st.ledger (book st eventId userId).1.ledger ∧
    ledgerEvolves st.ledger (cancel st eventId userId).1.ledger ∧
    (cancel st eventId userId).1.ledger.length = st.ledger.length ∧
    (book st eventId userId).1.ledger.take st.ledger.length = st.ledger ∧
    (∀ r ∈ (book st eventId userId).1.ledger.drop st.ledger.length,
      r.id = st.nextId ∧ r ∉ st.ledger) := by
  have havail : (availableRoute st resp).1 = st := by
    cases hTok : st.tokensSet <;> simp [availableRoute, hTok]
  refine ⟨?_, ?_, ?_, ?_, cancel_ledger_length st eventId userId, ?_, ?_⟩
  · rw [havail]; exact ledgerEvolves_refl _
  · exact ledgerEvolves_refl _
  · rcases book_ledger_shape st eventId userId with hsh | ⟨ev, hsh⟩
    · rw [hsh]; exact ledgerEvolves_refl _
    · rw [hsh]; exact ledgerEvolves_append _ _
  · rcases cancel_ledger_shape st eventId userId with hsh | hsh
    · rw [hsh]; exact ledgerEvolves_refl _
    · rw [hsh]; exact ledgerEvolves_cancelMap _ _ _
  · rcases book_ledger_shape st eventId userId with hsh | ⟨ev, hsh⟩
    · rw [hsh]; exact List.take_length st.ledger
    · rw [hsh]; exact List.take_left st.ledger _
  · rcases book_ledger_shape st eventId userId with hsh | ⟨ev, hsh⟩
    · rw [hsh, List.drop_length]
      intro r hr
      exact absurd hr (List.not_mem_nil r)
    · rw [hsh, List.drop_left]
      intro r hr
      have hr2 : r = bookedRow st eventId userId ev :=
        List.mem_singleton.mp hr
      constructor
      · rw [hr2]; rfl
      · rw [hr2]
        intro hmem
        have := hFresh _ hmem
        simp [bookedRow] at this

/-- Witness for C5 at the sample state, slot e1, patient 7, with the
sample calendar as response. -/
theorem ledger_invariants_preserved_at_sample :
    ledgerEvolves stA.ledger (availableRoute stA [evA, evB, evU]).1.ledger ∧
    ledgerEvolves stA.ledger (mine stA 7).1.ledger ∧
    ledgerEvolves stA.ledger (book stA "e1" 7).1.ledger ∧
    ledgerEvolves stA.ledger (cancel stA "e1" 7).1.ledger ∧
    (cancel stA "e1" 7).1.ledger.length = stA.ledger.length ∧
    (book stA "e1" 7).1.ledger.take stA.ledger.length = stA.ledger ∧
    (∀ r ∈ (book stA "e1" 7).1.ledger.drop stA.ledger.length,
      r.id = stA.nextId ∧ r ∉ stA.ledger) :=
  ledger_invariants_preserved stA "e1" 7 [evA, evB, evU] (by decide)

theorem calUpdate_length (cal : List GEvent) (eventId : String)
    (res : GEvent) : (calUpdate cal eventId res).length = cal.length := by
  simp [calUpdate]

theorem calUpdate_getElem?_other (cal : List GEvent) (eventId : String)
    (res : GEvent) (i : Nat) (h : i < cal.length)
    (hne : (cal.get ⟨i, h⟩).id ≠ eventId) :
    (calUpdate cal eventId res)[i]? = some (cal.get ⟨i, h⟩) := by
  have hne2 : cal[i].id ≠ eventId := hne
  rw [calUpdate, List.getElem?_map, List.getElem?_eq_getElem h]
  simp [if_neg hne2, List.get_eq_getElem]

theorem book_calendar_branches (st : SyncState) (eventId : String)
    (userId : Nat) (ev : GEvent) (hTok : st.tokensSet = true)
    (hGet : calGet st.calendar eventId = some ev) :
    (book st eventId userId).1.calendar = st.calendar ∨
    (book st eventId userId).1.calendar =
      calUpdate st.calendar eventId { ev with summary := some "BOOKED" } := by
  by_cases hAvail : summaryAvailable ev.summary = true
  · right; rw [book_ok st eventId userId ev hTok hGet hAvail]
  · left
    rw [book_conflict_eq st eventId userId ev hTok hGet
      (by simpa using hAvail)]

/-- Claim C6: the relabel performed by book and by cancel is a full
overwrite that round-trips the remote slot: the updated slot differs
from the fetched one only in the summary field, and every other event
of the calendar is untouched. -/
theorem relabel_full_roundtrip (st : SyncState) (eventId : String)
    (userId : Nat) (ev : GEvent) (hTok : st.tokensSet = true)
    (hGet : calGet st.calendar eventId = some ev) :
    (summaryAvailable ev.summary = true →
      ∃ ev2, calGet (book st eventId userId).1.calendar eventId = some ev2 ∧
        ev2.id = ev.id ∧ ev2.start = ev.start ∧ ev2.end_ = ev.end_ ∧
        ev2.extra = ev.extra ∧ ev2.summary = some "BOOKED") ∧
    (∃ ev3, calGet (cancel st eventId userId).1.calendar eventId = some ev3 ∧
      ev3.id = ev.id ∧ ev3.start = ev.start ∧ ev3.end_ = ev.end_ ∧
      ev3.extra = ev.extra ∧ ev3.summary = some "AVAILABLE") ∧
    (book st eventId userId).1.calendar.length = st.calendar.length ∧
    (cancel st eventId userId).1.calendar.length = st.calendar.length ∧
    (∀ i (h : i < st.calendar.length),
      (st.calendar.get ⟨i, h⟩).id ≠ eventId →
      (book st eventId userId).1.calendar[i]? =
        some (st.calendar.get ⟨i, h⟩)) ∧
    (∀ i (h : i < st.calendar.length),
      (st.calendar.get ⟨i, h⟩).id ≠ eventId →
      (cancel st eventId userId).1.calendar[i]? =
        some (st.calendar.get ⟨i, h⟩)) := by
  have hcanc := cancel_ok st eventId userId ev hTok hGet
  refine ⟨?_, ?_, ?_, ?_, ?_, ?_⟩
  · intro hAvail
    rw [book_ok st eventId userId ev hTok hGet hAvail]
    exact ⟨{ ev with summary := some "BOOKED" },
      calGet_calUpdate_self st.calendar eventId _ ev
        (calGet_id st.calendar eventId ev hGet) hGet,
      rfl, rfl, rfl, rfl, rfl⟩
  · rw [hcanc]
    exact ⟨{ ev with summary := some "AVAILABLE" },
      calGet_calUpdate_self st.calendar eventId _ ev
        (calGet_id st.calendar eventId ev hGet) hGet,
      rfl, rfl, rfl, rfl, rfl⟩
  · rcases book_calendar_branches st eventId userId ev hTok hGet with hb | hb
    · rw [hb]
    · rw [hb]; exact calUpdate_length _ _ _
  · rw [hcanc]; exact calUpdate_length _ _ _
  · intro i h hne
    rcases book_calendar_branches st eventId userId ev hTok hGet with hb | hb
    · rw [hb, List.getElem?_eq_getElem h]
      simp [List.get_eq_getElem]
    · rw [hb]
      exact calUpdate_getElem?_other st.calendar eventId _ i h hne
  · intro i h hne
    rw [hcanc]
    exact calUpdate_getElem?_other st.calendar eventId _ i h hne

/-- Witness for C6 at the sample state, slot e1, patient 7. -/
theorem relabel_full_roundtrip_at_sample :
    (summaryAvailable evA.summary = true →
      ∃ ev2, calGet (book stA "e1" 7).1.calendar "e1" = some ev2 ∧
        ev2.id = evA.id ∧ ev2.start = evA.start ∧ ev2.end_ = evA.end_ ∧
        ev2.extra = evA.extra ∧ ev2.summary = some "BOOKED") ∧
    (∃ ev3, calGet (cancel stA "e1" 7).1.calendar "e1" = some ev3 ∧
      ev3.id = evA.id ∧ ev3.start = evA.start ∧ ev3.end_ = evA.end_ ∧
      ev3.extra = evA.extra ∧ ev3.summary = some "AVAILABLE") ∧
    (book stA "e1" 7).1.calendar.length = stA.calendar.length ∧
    (cancel stA "e1" 7).1.calendar.length = stA.calendar.length ∧
    (∀ i (h : i < stA.calendar.length),
      (stA.calendar.get ⟨i, h⟩).id ≠ "e1" →
      (book stA "e1" 7).1.calendar[i]? =
        some (stA.calendar.get ⟨i, h⟩)) ∧
    (∀ i (h : i < stA.calendar.length),
      (stA.calendar.get ⟨i, h⟩).id ≠ "e1" →
      (cancel stA "e1" 7).1.calendar[i]? =
        some (stA.calendar.get ⟨i, h⟩)) :=
  relabel_full_roundtrip stA "e1" 7 evA rfl (by decide)

/-- Claim C7: with a slot id absent from the calendar, book and cancel
both fail with the 404 response and mutate nothing. -/
theorem missing_slot_not_found (st : SyncState) (eventId : String)
    (userId : Nat) (hTok : st.tokensSet = true)
    (hGet : calGet st.calendar eventId = none) :
    book st eventId userId = (st, .error .notFound) ∧
    cancel st eventId userId = (st, .error .notFound) := by
  constructor
  · simp [book, hTok, hGet]
  · simp [cancel, hTok, hGet]

/-- Witness for C7 at the sample state with an unknown slot id. -/
theorem missing_slot_not_found_at_sample :
    book stA "nope" 7 = (stA, .error .notFound) ∧
    cancel stA "nope" 7 = (stA, .error .notFound) :=
  missing_slot_not_found stA "nope" 7 rfl (by decide)

/-- Claim C8 (amended): when the one-time authorization handshake has
not completed, listAvailable, book and cancel fail with the
not-authorized response before touching either backing service,
leaving the state unchanged; listMine, however, is not gated on the
handshake and serves the ledger regardless of it. -/
theorem handshake_gates_calendar_ops (st : SyncState) (eventId : String)
    (userId : Nat) (resp : List GEvent) (hTok : st.tokensSet = false) :
    availableRoute st resp = (st, .error .upstreamUnavailable) ∧
    book st eventId userId = (st, .error .upstreamUnavailable) ∧
    cancel st eventId userId = (st, .error .upstreamUnavailable) ∧
    (mine st userId).1 = st ∧
    (mine st userId).2 = (mine { st with tokensSet := true } userId).2 := by
  refine ⟨?_, ?_, ?_, rfl, rfl⟩
  · simp [availableRoute, hTok]
  · simp [book, hTok]
  · simp [cancel, hTok]

/-- Witness for the amended C8 at the sample pre-handshake state. -/
theorem handshake_gates_calendar_ops_at_sample :
    availableRoute stOff [evA, evB, evU] =
      (stOff, .error .upstreamUnavailable) ∧
    book stOff "e1" 7 = (stOff, .error .upstreamUnavailable) ∧
    cancel stOff "e1" 7 = (stOff, .error .upstreamUnavailable) ∧
    (mine stOff 7).1 = stOff ∧
    (mine stOff 7).2 = (mine { stOff with tokensSet := true } 7).2 :=
  handshake_gates_calendar_ops stOff "e1" 7 [evA, evB, evU] rfl

/-- Counterexample to C8 as stated: in the sample pre-handshake state
listMine does not fail with the not-authorized response; it succeeds
against the ledger and returns patient 7's BOOKED row. -/
theorem mine_ignores_handshake_cex :
    stOff.tokensSet = false ∧
    (mine stOff 7).2 = RouteResult.ok [row1] ∧
    (mine stOff 7).2 ≠ RouteResult.error RouteError.upstreamUnavailable := by
  refine ⟨rfl, by decide, by decide⟩

/-- Claim C9: if the ledger insert fails after the calendar relabel to
BOOKED succeeded, book reports the failure to the caller with no
compensation: the slot stays relabelled BOOKED and no ledger row was
created by the call. -/
theorem book_partial_failure_orphan (st : SyncState) (eventId : String)
    (userId : Nat) (ev : GEvent) (hTok : st.tokensSet = true)
    (hGet : calGet st.calendar eventId = some ev)
    (hAvail : summaryAvailable ev.summary = true) :
    (bookLedgerFail st eventId userId).2 = .error .upstreamFailure ∧
    calGet (bookLedgerFail st eventId userId).1.calendar eventId =
      some { ev with summary := some "BOOKED" } ∧
    (bookLedgerFail st eventId userId).1.ledger = st.ledger ∧
    (bookLedgerFail st eventId userId).1.nextId = st.nextId := by
  have heq : bookLedgerFail st eventId userId =
      ({ st with
          calendar := calUpdate st.calendar eventId
            { ev with summary := some "BOOKED" } },
       .error .upstreamFailure) := by
    simp [bookLedgerFail, hTok, hGet, hAvail]
  rw [heq]
  exact ⟨rfl, calGet_calUpdate_self st.calendar eventId _ ev
    (calGet_id st.calendar eventId ev hGet) hGet, rfl, rfl⟩

/-- Witness for C9 at the sample state, slot e1, patient 7. -/
theorem book_partial_failure_orphan_at_sample :
    (bookLedgerFail stA "e1" 7).2 = .error .upstreamFailure ∧
    calGet (bookLedgerFail stA "e1" 7).1.calendar "e1" =
      some { evA with summary := some "BOOKED" } ∧
    (bookLedgerFail stA "e1" 7).1.ledger = stA.ledger ∧
    (bookLedgerFail stA "e1" 7).1.nextId = stA.nextId :=
  book_partial_failure_orphan stA "e1" 7 evA rfl (by decide) (by decide)

/-- Claim C10: availability is a case-insensitive substring test with
no word-boundary or exact-match handling, so a label containing the
token only inside a longer token -- such as UNAVAILABLE or
"not available" -- passes it: the availability listing includes such
a slot and book accepts it. -/
theorem availability_substring_quirk (st : SyncState) (eventId : String)
    (userId : Nat) (ev : GEvent) (hTok : st.tokensSet = true)
    (hGet : calGet st.calendar eventId = some ev)
    (hLabel : ev.summary = some "UNAVAILABLE" ∨
      ev.summary = some "not available") :
    summaryAvailable ev.summary = true ∧
    (∀ resp, ev ∈ resp → ∃ out,
      (availableRoute st resp).2 = .ok out ∧ ev ∈ out) ∧
    (∃ row, (book st eventId userId).2 = .ok row ∧
      row.status = .BOOKED ∧ row.googleEventId = some eventId) := by
  have hAvail : summaryAvailable ev.summary = true := by
    rcases hLabel with h | h <;> rw [h] <;> decide
  refine ⟨hAvail, ?_, ?_⟩
  · intro resp hin
    refine ⟨resp.filter (fun e => summaryAvailable e.summary), ?_, ?_⟩
    · simp [availableRoute, hTok]
    · exact List.mem_filter.mpr ⟨hin, hAvail⟩
  · refine ⟨bookedRow st eventId userId ev, ?_, rfl, rfl⟩
    rw [book_ok st eventId userId ev hTok hGet hAvail]

/-- Witness for C10 at the sample state, the UNAVAILABLE-labelled slot
e3, patient 7. -/
theorem availability_substring_quirk_at_sample :
    summaryAvailable evU.summary = true ∧
    (∀ resp, evU ∈ resp → ∃ out,
      (availableRoute stA resp).2 = .ok out ∧ evU ∈ out) ∧
    (∃ row, (book stA "e3" 7).2 = .ok row ∧
      row.status = .BOOKED ∧ row.googleEventId = some "e3") :=
  availability_substring_quirk stA "e3" 7 evU rfl (by decide)
    (Or.inl rfl)

end ApptSync
